import Mathlib

/-!
Verification of the option-pricing core (`pricing.py`): Black-Scholes and
Black-76 closed forms, Greeks, and the bracketed implied-volatility solver.

The pricing code is embedded shallowly over `ℝ`.  Python exceptions are
modelled by `Except PyErr`; the external root finder `brentq` is an abstract
parameter of the solver.  The standard normal distribution utilities
(`scipy.stats.norm.pdf` / `norm.cdf`) are modelled by their mathematical
definitions `normPdf` / `normCdf`.
-/

open MeasureTheory Set

namespace OptionPricer

/-- Standard normal density `scipy.stats.norm.pdf`. -/
noncomputable def normPdf (x : ℝ) : ℝ :=
  (Real.sqrt (2 * Real.pi))⁻¹ * Real.exp (-(1 / 2) * x ^ 2)

/-- Standard normal cumulative distribution `scipy.stats.norm.cdf`. -/
noncomputable def normCdf (x : ℝ) : ℝ :=
  ∫ t in Iic x, normPdf t

lemma sqrt_two_pi_pos : 0 < Real.sqrt (2 * Real.pi) :=
  Real.sqrt_pos.2 (by positivity)

lemma normPdf_pos (x : ℝ) : 0 < normPdf x := by
  unfold normPdf
  positivity

lemma normPdf_even (x : ℝ) : normPdf (-x) = normPdf x := by
  unfold normPdf
  ring_nf

lemma continuous_normPdf : Continuous normPdf := by
  unfold normPdf
  fun_prop

lemma integrable_normPdf : Integrable normPdf := by
  unfold normPdf
  exact (integrable_exp_neg_mul_sq (by norm_num : (0:ℝ) < 1 / 2)).const_mul _

lemma integral_normPdf : ∫ x, normPdf x = 1 := by
  unfold normPdf
  rw [MeasureTheory.integral_mul_left, integral_gaussian (1 / 2)]
  rw [show (Real.pi / (1 / 2) : ℝ) = 2 * Real.pi by ring]
  exact inv_mul_cancel₀ (ne_of_gt sqrt_two_pi_pos)

lemma integrableOn_normPdf (s : Set ℝ) : IntegrableOn normPdf s :=
  integrable_normPdf.integrableOn

lemma normCdf_add_normCdf_neg (x : ℝ) : normCdf x + normCdf (-x) = 1 := by
  have hneg : normCdf (-x) = ∫ t in Ioi x, normPdf t := by
    unfold normCdf
    rw [← integral_comp_neg_Ioi]
    simp only [normPdf_even]
  rw [hneg]
  unfold normCdf
  rw [intervalIntegral.integral_Iic_add_Ioi integrable_normPdf.integrableOn
    integrable_normPdf.integrableOn]
  exact integral_normPdf

lemma normCdf_zero : normCdf 0 = 1 / 2 := by
  have h := normCdf_add_normCdf_neg 0
  rw [neg_zero] at h
  linarith

lemma hasDerivAt_normCdf (x : ℝ) : HasDerivAt normCdf (normPdf x) x := by
  have hrepr : normCdf = fun u => normCdf 0 + ∫ t in (0:ℝ)..u, normPdf t := by
    funext u
    have := intervalIntegral.integral_Iic_sub_Iic
      (integrableOn_normPdf (Iic 0)) (integrableOn_normPdf (Iic u))
    unfold normCdf
    linarith [this]
  rw [hrepr]
  have hFTC : HasDerivAt (fun u => ∫ t in (0:ℝ)..u, normPdf t) (normPdf x) x := by
    refine intervalIntegral.integral_hasDerivAt_right
      integrable_normPdf.intervalIntegrable ?_ continuous_normPdf.continuousAt
    exact continuous_normPdf.stronglyMeasurable.stronglyMeasurableAtFilter
  exact hFTC.const_add (normCdf 0)

lemma normCdf_strictMono : StrictMono normCdf := by
  apply strictMono_of_deriv_pos
  intro x
  rw [(hasDerivAt_normCdf x).deriv]
  exact normPdf_pos x

/-! ## Embedding of `pricing.py`

Python exceptions are modelled by `Except PyErr`; `raise ValueError(msg)`
becomes `.error (.valueError msg)`, and `try ... except ValueError: return
None` becomes `catchValueError`.  String-valued `option_type` / `model`
arguments are kept as `String`, as in the source. -/

/-- A raised Python exception.  The pricing module only ever raises
`ValueError`; other exception classes would pass through its handlers. -/
inductive PyErr where
  | valueError (msg : String)
  | otherError (msg : String)
deriving DecidableEq

abbrev PyResult (α : Type) := Except PyErr α

/-- `try body except ValueError: handler` — only `ValueError` is caught. -/
def catchValueError {α : Type} (body handler : PyResult α) : PyResult α :=
  match body with
  | .error (.valueError _) => handler
  | other => other

/-- `d1` of `black_scholes`. -/
noncomputable def bs_d1 (S K T r sigma : ℝ) : ℝ :=
  (Real.log (S / K) + (r + 0.5 * sigma ^ 2) * T) / (sigma * Real.sqrt T)

/-- `d2` of `black_scholes`. -/
noncomputable def bs_d2 (S K T r sigma : ℝ) : ℝ :=
  bs_d1 S K T r sigma - sigma * Real.sqrt T

/-- Value returned by `black_scholes` on the `'call'` branch. -/
noncomputable def bs_call (S K T r sigma : ℝ) : ℝ :=
  S * normCdf (bs_d1 S K T r sigma) -
    K * Real.exp (-r * T) * normCdf (bs_d2 S K T r sigma)

/-- Value returned by `black_scholes` on the `'put'` branch. -/
noncomputable def bs_put (S K T r sigma : ℝ) : ℝ :=
  K * Real.exp (-r * T) * normCdf (-bs_d2 S K T r sigma) -
    S * normCdf (-bs_d1 S K T r sigma)

/-- `black_scholes(S, K, T, r, sigma, option_type)`. -/
noncomputable def black_scholes (S K T r sigma : ℝ) (option_type : String) :
    PyResult ℝ :=
  if option_type = "call" then .ok (bs_call S K T r sigma)
  else if option_type = "put" then .ok (bs_put S K T r sigma)
  else .error (.valueError "option_type must be call or put")

/-- `d1` of `black_76` (no rate term). -/
noncomputable def b76_d1 (F K T sigma : ℝ) : ℝ :=
  (Real.log (F / K) + 0.5 * sigma ^ 2 * T) / (sigma * Real.sqrt T)

/-- `d2` of `black_76`. -/
noncomputable def b76_d2 (F K T sigma : ℝ) : ℝ :=
  b76_d1 F K T sigma - sigma * Real.sqrt T

/-- Value returned by `black_76` on the `'call'` branch. -/
noncomputable def b76_call (F K T r sigma : ℝ) : ℝ :=
  Real.exp (-r * T) *
    (F * normCdf (b76_d1 F K T sigma) - K * normCdf (b76_d2 F K T sigma))

/-- Value returned by `black_76` on the `'put'` branch. -/
noncomputable def b76_put (F K T r sigma : ℝ) : ℝ :=
  Real.exp (-r * T) *
    (K * normCdf (-b76_d2 F K T sigma) - F * normCdf (-b76_d1 F K T sigma))

/-- `black_76(F, K, T, r, sigma, option_type)`. -/
noncomputable def black_76 (F K T r sigma : ℝ) (option_type : String) :
    PyResult ℝ :=
  if option_type = "call" then .ok (b76_call F K T r sigma)
  else if option_type = "put" then .ok (b76_put F K T r sigma)
  else .error (.valueError "option_type must be call or put")

/-- `price_option(model, S_or_F, K, T, r, sigma, option_type)`. -/
noncomputable def price_option (model : String) (S_or_F K T r sigma : ℝ)
    (option_type : String) : PyResult ℝ :=
  if model = "spot" then black_scholes S_or_F K T r sigma option_type
  else if model = "futures" then black_76 S_or_F K T r sigma option_type
  else .error (.valueError "model must be spot or futures")

/-- Python `round(x, 4)`: round to 4 decimal places. -/
noncomputable def round4 (x : ℝ) : ℝ :=
  (round (x * 10000) : ℤ) / 10000

/-! Greeks of `calculate_greeks_bs`, one definition per local variable of
the source. -/

noncomputable def bs_delta_call (S K T r sigma : ℝ) : ℝ :=
  normCdf (bs_d1 S K T r sigma)

noncomputable def bs_delta_put (S K T r sigma : ℝ) : ℝ :=
  normCdf (bs_d1 S K T r sigma) - 1

noncomputable def bs_theta_call (S K T r sigma : ℝ) : ℝ :=
  (-S * normPdf (bs_d1 S K T r sigma) * sigma / (2 * Real.sqrt T) -
    r * K * Real.exp (-r * T) * normCdf (bs_d2 S K T r sigma)) / 365

noncomputable def bs_theta_put (S K T r sigma : ℝ) : ℝ :=
  (-S * normPdf (bs_d1 S K T r sigma) * sigma / (2 * Real.sqrt T) +
    r * K * Real.exp (-r * T) * normCdf (-bs_d2 S K T r sigma)) / 365

noncomputable def bs_rho_call (S K T r sigma : ℝ) : ℝ :=
  K * T * Real.exp (-r * T) * normCdf (bs_d2 S K T r sigma) / 100

noncomputable def bs_rho_put (S K T r sigma : ℝ) : ℝ :=
  -K * T * Real.exp (-r * T) * normCdf (-bs_d2 S K T r sigma) / 100

noncomputable def bs_gamma (S K T r sigma : ℝ) : ℝ :=
  normPdf (bs_d1 S K T r sigma) / (S * sigma * Real.sqrt T)

noncomputable def bs_vega (S K T r sigma : ℝ) : ℝ :=
  S * normPdf (bs_d1 S K T r sigma) * Real.sqrt T / 100

/-- `calculate_greeks_bs(S, K, T, r, sigma, option_type)`: the returned dict
is modelled as the ordered key/value list of its literal. -/
noncomputable def calculate_greeks_bs (S K T r sigma : ℝ) (option_type : String) :
    PyResult (List (String × ℝ)) :=
  if option_type = "call" then
    .ok [("Delta", round4 (bs_delta_call S K T r sigma)),
         ("Gamma", round4 (bs_gamma S K T r sigma)),
         ("Vega", round4 (bs_vega S K T r sigma)),
         ("Theta", round4 (bs_theta_call S K T r sigma)),
         ("Rho", round4 (bs_rho_call S K T r sigma))]
  else if option_type = "put" then
    .ok [("Delta", round4 (bs_delta_put S K T r sigma)),
         ("Gamma", round4 (bs_gamma S K T r sigma)),
         ("Vega", round4 (bs_vega S K T r sigma)),
         ("Theta", round4 (bs_theta_put S K T r sigma)),
         ("Rho", round4 (bs_rho_put S K T r sigma))]
  else .error (.valueError "option_type must be call or put")

/-! Greeks of `calculate_greeks_black76`. -/

noncomputable def b76_gamma (F K T r sigma : ℝ) : ℝ :=
  normPdf (b76_d1 F K T sigma) / (F * sigma * Real.sqrt T)

noncomputable def b76_vega (F K T r sigma : ℝ) : ℝ :=
  F * normPdf (b76_d1 F K T sigma) * Real.sqrt T * Real.exp (-r * T) / 100

noncomputable def b76_delta_call (F K T r sigma : ℝ) : ℝ :=
  Real.exp (-r * T) * normCdf (b76_d1 F K T sigma)

noncomputable def b76_rho_call (F K T r sigma : ℝ) : ℝ :=
  T * K * Real.exp (-r * T) * normCdf (b76_d2 F K T sigma) / 100

noncomputable def b76_theta_call (F K T r sigma : ℝ) : ℝ :=
  (-F * normPdf (b76_d1 F K T sigma) * sigma * Real.exp (-r * T) /
      (2 * Real.sqrt T) -
    r * F * normCdf (b76_d1 F K T sigma) * Real.exp (-r * T)) / 365

noncomputable def b76_delta_put (F K T r sigma : ℝ) : ℝ :=
  -Real.exp (-r * T) * normCdf (-b76_d1 F K T sigma)

noncomputable def b76_rho_put (F K T r sigma : ℝ) : ℝ :=
  -T * K * Real.exp (-r * T) * normCdf (-b76_d2 F K T sigma) / 100

noncomputable def b76_theta_put (F K T r sigma : ℝ) : ℝ :=
  (-F * normPdf (b76_d1 F K T sigma) * sigma * Real.exp (-r * T) /
      (2 * Real.sqrt T) +
    r * F * normCdf (-b76_d1 F K T sigma) * Real.exp (-r * T)) / 365

/-- `calculate_greeks_black76(F, K, T, r, sigma, option_type)`. -/
noncomputable def calculate_greeks_black76 (F K T r sigma : ℝ)
    (option_type : String) : PyResult (List (String × ℝ)) :=
  if option_type = "call" then
    .ok [("Delta", round4 (b76_delta_call F K T r sigma)),
         ("Gamma", round4 (b76_gamma F K T r sigma)),
         ("Vega", round4 (b76_vega F K T r sigma)),
         ("Theta", round4 (b76_theta_call F K T r sigma)),
         ("Rho", round4 (b76_rho_call F K T r sigma))]
  else if option_type = "put" then
    .ok [("Delta", round4 (b76_delta_put F K T r sigma)),
         ("Gamma", round4 (b76_gamma F K T r sigma)),
         ("Vega", round4 (b76_vega F K T r sigma)),
         ("Theta", round4 (b76_theta_put F K T r sigma)),
         ("Rho", round4 (b76_rho_put F K T r sigma))]
  else .error (.valueError "option_type must be call or put")

/-- `calculate_greeks(model, S_or_F, K, T, r, sigma, option_type)`. -/
noncomputable def calculate_greeks (model : String) (S_or_F K T r sigma : ℝ)
    (option_type : String) : PyResult (List (String × ℝ)) :=
  if model = "spot" then calculate_greeks_bs S_or_F K T r sigma option_type
  else if model = "futures" then
    calculate_greeks_black76 S_or_F K T r sigma option_type
  else .error (.valueError "model must be spot or futures")

/-- Interface of `scipy.optimize.brentq`, the external bracketing root
finder: given an objective and the bracket endpoints it either returns a
real or raises.  The solver below is parameterised over it. -/
def Brentq : Type := (ℝ → PyResult ℝ) → ℝ → ℝ → PyResult ℝ

/-- The `objective_function` closure of `implied_volatility`. -/
noncomputable def iv_objective (option_market_price S K T r : ℝ)
    (option_type : String) : ℝ → PyResult ℝ :=
  fun sigma =>
    (black_scholes S K T r sigma option_type).map
      (fun v => v - option_market_price)

/-- `implied_volatility(option_market_price, S, K, T, r, option_type)`.
`None` is modelled by `Option.none`; uncaught exceptions stay `.error`. -/
noncomputable def implied_volatility (brentq : Brentq)
    (option_market_price S K T r : ℝ) (option_type : String) :
    PyResult (Option ℝ) :=
  catchValueError
    ((black_scholes S K T r 0.0001 option_type).bind fun test_low =>
      (black_scholes S K T r 3.0 option_type).bind fun test_high =>
        if ¬ (test_low ≤ option_market_price ∧
              option_market_price ≤ test_high) then
          .ok none
        else
          (brentq (iv_objective option_market_price S K T r option_type)
              0.0001 3.0).map
            (fun implied_vol => some (round4 implied_vol)))
    (.ok none)

/-- The `objective_function` closure of `implied_volatility_black76`. -/
noncomputable def iv_objective_b76 (option_market_price F K T r : ℝ)
    (option_type : String) : ℝ → PyResult ℝ :=
  fun sigma =>
    (black_76 F K T r sigma option_type).map
      (fun v => v - option_market_price)

/-- `implied_volatility_black76(option_market_price, F, K, T, r, option_type)`. -/
noncomputable def implied_volatility_black76 (brentq : Brentq)
    (option_market_price F K T r : ℝ) (option_type : String) :
    PyResult (Option ℝ) :=
  catchValueError
    ((black_76 F K T r 0.0001 option_type).bind fun test_low =>
      (black_76 F K T r 3.0 option_type).bind fun test_high =>
        if ¬ (test_low ≤ option_market_price ∧
              option_market_price ≤ test_high) then
          .ok none
        else
          (brentq (iv_objective_b76 option_market_price F K T r option_type)
              0.0001 3.0).map
            (fun implied_vol => some (round4 implied_vol)))
    (.ok none)

/-- `get_implied_volatility(model, market_price, S_or_F, K, T, r, option_type)`. -/
noncomputable def get_implied_volatility (brentq : Brentq) (model : String)
    (market_price S_or_F K T r : ℝ) (option_type : String) :
    PyResult (Option ℝ) :=
  if model = "spot" then
    implied_volatility brentq market_price S_or_F K T r option_type
  else if model = "futures" then
    implied_volatility_black76 brentq market_price S_or_F K T r option_type
  else .error (.valueError "model must be spot or futures")

/-! ## Helper lemmas -/

/-- Put-call parity for the spot model, an identity of the embedded terms. -/
lemma bs_parity (S K T r sigma : ℝ) :
    bs_call S K T r sigma - bs_put S K T r sigma =
      S - K * Real.exp (-r * T) := by
  have h1 := normCdf_add_normCdf_neg (bs_d1 S K T r sigma)
  have h2 := normCdf_add_normCdf_neg (bs_d2 S K T r sigma)
  unfold bs_call bs_put
  linear_combination S * h1 - K * Real.exp (-r * T) * h2

/-- Put-call parity for the futures model. -/
lemma b76_parity (F K T r sigma : ℝ) :
    b76_call F K T r sigma - b76_put F K T r sigma =
      Real.exp (-r * T) * (F - K) := by
  have h1 := normCdf_add_normCdf_neg (b76_d1 F K T sigma)
  have h2 := normCdf_add_normCdf_neg (b76_d2 F K T sigma)
  unfold b76_call b76_put
  linear_combination Real.exp (-r * T) * F * h1 - Real.exp (-r * T) * K * h2

/-- Black-76 is the Black-Scholes form at rate `0`, discounted. -/
lemma b76_call_eq_bs (F K T r sigma : ℝ) :
    b76_call F K T r sigma = Real.exp (-r * T) * bs_call F K T 0 sigma := by
  have hd1 : bs_d1 F K T 0 sigma = b76_d1 F K T sigma := by
    unfold bs_d1 b76_d1
    ring_nf
  have hd2 : bs_d2 F K T 0 sigma = b76_d2 F K T sigma := by
    unfold bs_d2 b76_d2
    rw [hd1]
  unfold b76_call bs_call
  rw [hd1, hd2]
  norm_num

lemma b76_put_eq_bs (F K T r sigma : ℝ) :
    b76_put F K T r sigma = Real.exp (-r * T) * bs_put F K T 0 sigma := by
  have hd1 : bs_d1 F K T 0 sigma = b76_d1 F K T sigma := by
    unfold bs_d1 b76_d1
    ring_nf
  have hd2 : bs_d2 F K T 0 sigma = b76_d2 F K T sigma := by
    unfold bs_d2 b76_d2
    rw [hd1]
  unfold b76_put bs_put
  rw [hd1, hd2]
  norm_num

/-- `round(x, 4)` lands within `1e-4` of `x`. -/
lemma round4_close (x : ℝ) : |round4 x - x| ≤ 0.0001 := by
  unfold round4
  have h := abs_sub_round (x * 10000)
  rw [show (round (x * 10000) : ℝ) / 10000 - x =
      ((round (x * 10000) : ℝ) - x * 10000) / 10000 by ring, abs_div]
  rw [show |(10000 : ℝ)| = 10000 by norm_num]
  rw [div_le_iff₀ (by norm_num : (0:ℝ) < 10000)]
  rw [abs_sub_comm]
  norm_num
  linarith

/-- Every `round(x, 4)` value is an integer multiple of `10⁻⁴`. -/
lemma round4_is_4dp (x : ℝ) : ∃ n : ℤ, round4 x = (n : ℝ) / 10000 :=
  ⟨round (x * 10000), rfl⟩

/-- The value `black_scholes` returns on a recognised option type. -/
noncomputable def bs_price (S K T r sigma : ℝ) (option_type : String) : ℝ :=
  if option_type = "call" then bs_call S K T r sigma else bs_put S K T r sigma

/-- The value `black_76` returns on a recognised option type. -/
noncomputable def b76_price (F K T r sigma : ℝ) (option_type : String) : ℝ :=
  if option_type = "call" then b76_call F K T r sigma
  else b76_put F K T r sigma

lemma black_scholes_eq_ok (S K T r sigma : ℝ) {option_type : String}
    (h : option_type = "call" ∨ option_type = "put") :
    black_scholes S K T r sigma option_type =
      .ok (bs_price S K T r sigma option_type) := by
  rcases h with h | h <;> subst h <;> simp [black_scholes, bs_price]

lemma black_76_eq_ok (F K T r sigma : ℝ) {option_type : String}
    (h : option_type = "call" ∨ option_type = "put") :
    black_76 F K T r sigma option_type =
      .ok (b76_price F K T r sigma option_type) := by
  rcases h with h | h <;> subst h <;> simp [black_76, b76_price]

/-- The classical identity `K·e^(−rT)·φ(d2) = S·φ(d1)`. -/
lemma bs_pdf_identity {S K T : ℝ} (r : ℝ) {sigma : ℝ} (hS : 0 < S) (hK : 0 < K)
    (hT : 0 < T) (hs : sigma ≠ 0) :
    K * Real.exp (-r * T) * normPdf (bs_d2 S K T r sigma) =
      S * normPdf (bs_d1 S K T r sigma) := by
  have hsT : Real.sqrt T ≠ 0 := ne_of_gt (Real.sqrt_pos.2 hT)
  have hTT : Real.sqrt T * Real.sqrt T = T := Real.mul_self_sqrt hT.le
  have hd : bs_d1 S K T r sigma * (sigma * Real.sqrt T) =
      Real.log (S / K) + (r + 0.5 * sigma ^ 2) * T := by
    unfold bs_d1
    field_simp
  have hsq : (sigma * Real.sqrt T) ^ 2 = sigma ^ 2 * T := by
    rw [mul_pow, Real.sq_sqrt hT.le]
  have hexp : -(1 / 2 : ℝ) * bs_d2 S K T r sigma ^ 2 =
      -(1 / 2) * bs_d1 S K T r sigma ^ 2 + (Real.log (S / K) + r * T) := by
    unfold bs_d2
    linear_combination hd - (1 / 2) * hsq
  have hpdf : normPdf (bs_d2 S K T r sigma) =
      normPdf (bs_d1 S K T r sigma) * (S / K) * Real.exp (r * T) := by
    unfold normPdf
    rw [hexp, Real.exp_add, Real.exp_add, Real.exp_log (div_pos hS hK)]
    ring
  rw [hpdf, neg_mul, Real.exp_neg]
  field_simp
  ring

/-- Off `σ = 0`, `d1` splits into a hyperbola plus a linear term in `σ`. -/
lemma bs_d1_split (S K T r : ℝ) (hT : 0 < T) (sigma : ℝ) :
    bs_d1 S K T r sigma =
      (Real.log (S / K) + r * T) / Real.sqrt T / sigma +
        Real.sqrt T / 2 * sigma := by
  have hsT : Real.sqrt T ≠ 0 := ne_of_gt (Real.sqrt_pos.2 hT)
  have hTT : Real.sqrt T * Real.sqrt T = T := Real.mul_self_sqrt hT.le
  rcases eq_or_ne sigma 0 with hs | hs
  · subst hs
    simp [bs_d1]
  · unfold bs_d1
    set u := Real.sqrt T with hu
    rw [← hTT]
    field_simp
    ring

lemma hasDerivAt_bs_d1 (S K T r : ℝ) (hT : 0 < T) {sigma : ℝ}
    (hs : sigma ≠ 0) :
    HasDerivAt (fun s => bs_d1 S K T r s)
      (-((Real.log (S / K) + r * T) / Real.sqrt T) / sigma ^ 2 +
        Real.sqrt T / 2) sigma := by
  have hsplit : (fun s => bs_d1 S K T r s) =
      fun s => (Real.log (S / K) + r * T) / Real.sqrt T / s +
        Real.sqrt T / 2 * s := funext (bs_d1_split S K T r hT)
  rw [hsplit]
  have h1 : HasDerivAt
      (fun s : ℝ => (Real.log (S / K) + r * T) / Real.sqrt T / s)
      (-((Real.log (S / K) + r * T) / Real.sqrt T) / sigma ^ 2) sigma := by
    have h0 := (hasDerivAt_inv hs).const_mul
      ((Real.log (S / K) + r * T) / Real.sqrt T)
    simp only [div_eq_mul_inv]
    convert h0 using 1
    ring_nf
  have h2 : HasDerivAt (fun s : ℝ => Real.sqrt T / 2 * s)
      (Real.sqrt T / 2) sigma := by
    simpa using (hasDerivAt_id sigma).const_mul (Real.sqrt T / 2)
  exact h1.add h2

lemma hasDerivAt_bs_d2 (S K T r : ℝ) (hT : 0 < T) {sigma : ℝ}
    (hs : sigma ≠ 0) :
    HasDerivAt (fun s => bs_d2 S K T r s)
      (-((Real.log (S / K) + r * T) / Real.sqrt T) / sigma ^ 2 +
        Real.sqrt T / 2 - Real.sqrt T) sigma := by
  unfold bs_d2
  have hlin : HasDerivAt (fun s : ℝ => s * Real.sqrt T) (Real.sqrt T) sigma := by
    simpa using (hasDerivAt_id sigma).mul_const (Real.sqrt T)
  exact (hasDerivAt_bs_d1 S K T r hT hs).sub hlin

/-- Vega: the spot-model call price has σ-derivative `S·φ(d1)·√T`. -/
lemma hasDerivAt_bs_call {S K T : ℝ} (r : ℝ) {sigma : ℝ} (hS : 0 < S)
    (hK : 0 < K) (hT : 0 < T) (hs : sigma ≠ 0) :
    HasDerivAt (fun s => bs_call S K T r s)
      (S * normPdf (bs_d1 S K T r sigma) * Real.sqrt T) sigma := by
  have hd1 := hasDerivAt_bs_d1 S K T r hT hs
  have hd2 := hasDerivAt_bs_d2 S K T r hT hs
  have hc1 : HasDerivAt (fun s => normCdf (bs_d1 S K T r s))
      (normPdf (bs_d1 S K T r sigma) *
        (-((Real.log (S / K) + r * T) / Real.sqrt T) / sigma ^ 2 +
          Real.sqrt T / 2)) sigma :=
    (hasDerivAt_normCdf (bs_d1 S K T r sigma)).comp sigma hd1
  have hc2 : HasDerivAt (fun s => normCdf (bs_d2 S K T r s))
      (normPdf (bs_d2 S K T r sigma) *
        (-((Real.log (S / K) + r * T) / Real.sqrt T) / sigma ^ 2 +
          Real.sqrt T / 2 - Real.sqrt T)) sigma :=
    (hasDerivAt_normCdf (bs_d2 S K T r sigma)).comp sigma hd2
  have hsum := (hc1.const_mul S).sub
    (hc2.const_mul (K * Real.exp (-r * T)))
  have hkey := bs_pdf_identity r hS hK hT hs
  convert hsum using 1
  linear_combination
    (-((Real.log (S / K) + r * T) / Real.sqrt T) / sigma ^ 2 +
      Real.sqrt T / 2 - Real.sqrt T) * hkey

/-- The spot-model call price is strictly increasing in σ on `(0, ∞)`. -/
lemma bs_call_strictMonoOn {S K T : ℝ} (r : ℝ) (hS : 0 < S) (hK : 0 < K)
    (hT : 0 < T) :
    StrictMonoOn (fun s => bs_call S K T r s) (Ioi 0) := by
  refine strictMonoOn_of_deriv_pos (convex_Ioi 0) ?_ ?_
  · intro x hx
    exact (hasDerivAt_bs_call r hS hK hT
      (ne_of_gt hx)).continuousAt.continuousWithinAt
  · intro x hx
    rw [interior_Ioi] at hx
    rw [(hasDerivAt_bs_call r hS hK hT (ne_of_gt hx)).deriv]
    have := normPdf_pos (bs_d1 S K T r x)
    have := Real.sqrt_pos.2 hT
    positivity

/-- The spot-model put price is strictly increasing in σ on `(0, ∞)`. -/
lemma bs_put_strictMonoOn {S K T : ℝ} (r : ℝ) (hS : 0 < S) (hK : 0 < K)
    (hT : 0 < T) :
    StrictMonoOn (fun s => bs_put S K T r s) (Ioi 0) := by
  intro a ha b hb hab
  have hcall := bs_call_strictMonoOn r hS hK hT ha hb hab
  have hpa := bs_parity S K T r a
  have hpb := bs_parity S K T r b
  simp only at hcall ⊢
  linarith

/-- The futures-model call price is strictly increasing in σ on `(0, ∞)`. -/
lemma b76_call_strictMonoOn {F K T : ℝ} (r : ℝ) (hF : 0 < F) (hK : 0 < K)
    (hT : 0 < T) :
    StrictMonoOn (fun s => b76_call F K T r s) (Ioi 0) := by
  intro a ha b hb hab
  have hcall := bs_call_strictMonoOn 0 hF hK hT ha hb hab
  simp only [b76_call_eq_bs]
  simp only at hcall
  exact mul_lt_mul_of_pos_left hcall (Real.exp_pos _)

/-- The futures-model put price is strictly increasing in σ on `(0, ∞)`. -/
lemma b76_put_strictMonoOn {F K T : ℝ} (r : ℝ) (hF : 0 < F) (hK : 0 < K)
    (hT : 0 < T) :
    StrictMonoOn (fun s => b76_put F K T r s) (Ioi 0) := by
  intro a ha b hb hab
  have hcall := b76_call_strictMonoOn r hF hK hT ha hb hab
  have hpa := b76_parity F K T r a
  have hpb := b76_parity F K T r b
  simp only at hcall ⊢
  linarith

lemma bs_price_strictMonoOn {S K T : ℝ} (r : ℝ) {option_type : String}
    (hot : option_type = "call" ∨ option_type = "put") (hS : 0 < S)
    (hK : 0 < K) (hT : 0 < T) :
    StrictMonoOn (fun s => bs_price S K T r s option_type) (Ioi 0) := by
  rcases hot with h | h <;> subst h <;>
    simp only [bs_price, if_true, reduceIte]
  · exact bs_call_strictMonoOn r hS hK hT
  · exact bs_put_strictMonoOn r hS hK hT

lemma b76_price_strictMonoOn {F K T : ℝ} (r : ℝ) {option_type : String}
    (hot : option_type = "call" ∨ option_type = "put") (hF : 0 < F)
    (hK : 0 < K) (hT : 0 < T) :
    StrictMonoOn (fun s => b76_price F K T r s option_type) (Ioi 0) := by
  rcases hot with h | h <;> subst h <;>
    simp only [b76_price, if_true, reduceIte]
  · exact b76_call_strictMonoOn r hF hK hT
  · exact b76_put_strictMonoOn r hF hK hT

/-- An unrecognised option type makes `black_scholes` raise inside the
`try`, which the solver's handler converts to `None`. -/
lemma implied_volatility_invalid_ot (brentq : Brentq) (p S K T r : ℝ)
    {option_type : String} (hc : option_type ≠ "call")
    (hp : option_type ≠ "put") :
    implied_volatility brentq p S K T r option_type = .ok none := by
  unfold implied_volatility black_scholes
  simp [hc, hp, Except.bind, catchValueError]

lemma implied_volatility_black76_invalid_ot (brentq : Brentq) (p F K T r : ℝ)
    {option_type : String} (hc : option_type ≠ "call")
    (hp : option_type ≠ "put") :
    implied_volatility_black76 brentq p F K T r option_type = .ok none := by
  unfold implied_volatility_black76 black_76
  simp [hc, hp, Except.bind, catchValueError]

/-- On a recognised option type the solver reduces to the bracket test
followed by the guarded root-finder call. -/
lemma implied_volatility_reduce (brentq : Brentq) (p S K T r : ℝ)
    {option_type : String}
    (hot : option_type = "call" ∨ option_type = "put") :
    implied_volatility brentq p S K T r option_type =
      if bs_price S K T r 0.0001 option_type ≤ p ∧
          p ≤ bs_price S K T r 3.0 option_type then
        catchValueError
          ((brentq (iv_objective p S K T r option_type) 0.0001 3.0).map
            (fun iv => some (round4 iv)))
          (.ok none)
      else .ok none := by
  unfold implied_volatility
  rw [black_scholes_eq_ok S K T r 0.0001 hot,
    black_scholes_eq_ok S K T r 3.0 hot]
  by_cases hcond : bs_price S K T r 0.0001 option_type ≤ p ∧
      p ≤ bs_price S K T r 3.0 option_type
  · simp [hcond, Except.bind]
  · simp [hcond, Except.bind, catchValueError]

lemma implied_volatility_black76_reduce (brentq : Brentq) (p F K T r : ℝ)
    {option_type : String}
    (hot : option_type = "call" ∨ option_type = "put") :
    implied_volatility_black76 brentq p F K T r option_type =
      if b76_price F K T r 0.0001 option_type ≤ p ∧
          p ≤ b76_price F K T r 3.0 option_type then
        catchValueError
          ((brentq (iv_objective_b76 p F K T r option_type) 0.0001 3.0).map
            (fun iv => some (round4 iv)))
          (.ok none)
      else .ok none := by
  unfold implied_volatility_black76
  rw [black_76_eq_ok F K T r 0.0001 hot, black_76_eq_ok F K T r 3.0 hot]
  by_cases hcond : b76_price F K T r 0.0001 option_type ≤ p ∧
      p ≤ b76_price F K T r 3.0 option_type
  · simp [hcond, Except.bind]
  · simp [hcond, Except.bind, catchValueError]

/-- Whatever error class the root finder raises, the `map` keeps it and
`catchValueError` converts exactly the `ValueError`s to `None`. -/
lemma catchValueError_map_error {msg : String} {res : PyResult ℝ}
    (h : res = .error (.valueError msg)) :
    catchValueError (res.map (fun iv => some (round4 iv)))
      ((.ok none : PyResult (Option ℝ))) = .ok none := by
  subst h
  rfl

/-! ## Claims -/

/-- C1: the spot-model price is the dividendless Black-Scholes closed form
(`S·Φ(d1) − K·e^(−rT)·Φ(d2)` for calls, `K·e^(−rT)·Φ(−d2) − S·Φ(−d1)` for
puts with `d1 = (ln(S/K) + (r + 0.5σ²)T)/(σ√T)`, `d2 = d1 − σ√T`), and the
futures-model price is the Black-76 closed form
(`df·(F·Φ(d1) − K·Φ(d2))` / `df·(K·Φ(−d2) − F·Φ(−d1))` with
`d1 = (ln(F/K) + 0.5σ²T)/(σ√T)`, `df = e^(−rT)`). -/
theorem C1_closed_form_prices (S F K T r sigma : ℝ) :
    price_option "spot" S K T r sigma "call" =
      .ok (S * normCdf ((Real.log (S / K) + (r + 0.5 * sigma ^ 2) * T) /
            (sigma * Real.sqrt T)) -
          K * Real.exp (-(r * T)) *
            normCdf ((Real.log (S / K) + (r + 0.5 * sigma ^ 2) * T) /
              (sigma * Real.sqrt T) - sigma * Real.sqrt T)) ∧
    price_option "spot" S K T r sigma "put" =
      .ok (K * Real.exp (-(r * T)) *
            normCdf (-((Real.log (S / K) + (r + 0.5 * sigma ^ 2) * T) /
              (sigma * Real.sqrt T) - sigma * Real.sqrt T)) -
          S * normCdf (-((Real.log (S / K) + (r + 0.5 * sigma ^ 2) * T) /
            (sigma * Real.sqrt T)))) ∧
    price_option "futures" F K T r sigma "call" =
      .ok (Real.exp (-(r * T)) *
          (F * normCdf ((Real.log (F / K) + 0.5 * sigma ^ 2 * T) /
              (sigma * Real.sqrt T)) -
            K * normCdf ((Real.log (F / K) + 0.5 * sigma ^ 2 * T) /
              (sigma * Real.sqrt T) - sigma * Real.sqrt T))) ∧
    price_option "futures" F K T r sigma "put" =
      .ok (Real.exp (-(r * T)) *
          (K * normCdf (-((Real.log (F / K) + 0.5 * sigma ^ 2 * T) /
              (sigma * Real.sqrt T) - sigma * Real.sqrt T)) -
            F * normCdf (-((Real.log (F / K) + 0.5 * sigma ^ 2 * T) /
              (sigma * Real.sqrt T))))) := by
  refine ⟨?_, ?_, ?_, ?_⟩ <;>
    simp [price_option, black_scholes, black_76, bs_call, bs_put, b76_call,
      b76_put, bs_d1, bs_d2, b76_d1, b76_d2, neg_mul]

/-- C2 counterexample: at `F = K = T = r = σ = 1`, the futures-model
Theta(call) of the code is not the claimed
`[−F·φ(d1)·σ·df/(2√T) − r·K·df·Φ(d2)] / 365`: the code's second term is
`r·F·Φ(d1)·df`, not `r·K·df·Φ(d2)`, and `Φ(d1) ≠ Φ(d2)` here. -/
theorem C2_counterexample :
    b76_theta_call 1 1 1 1 1 ≠
      (-1 * normPdf (b76_d1 1 1 1 1) * 1 * Real.exp (-(1 * 1)) /
          (2 * Real.sqrt 1) -
        1 * 1 * Real.exp (-(1 * 1)) * normCdf (b76_d2 1 1 1 1)) / 365 := by
  intro h
  have hd1 : b76_d1 1 1 1 1 = 0.5 := by
    unfold b76_d1
    rw [show (1:ℝ)/1 = 1 by norm_num, Real.log_one, Real.sqrt_one]
    norm_num
  have hd2 : b76_d2 1 1 1 1 = -0.5 := by
    unfold b76_d2
    rw [hd1, Real.sqrt_one]
    norm_num
  unfold b76_theta_call at h
  rw [hd1, hd2, Real.sqrt_one] at h
  have hmono : normCdf (-0.5) < normCdf 0.5 :=
    normCdf_strictMono (by norm_num)
  have hexp : (0:ℝ) < Real.exp (-(1:ℝ) * 1) := Real.exp_pos _
  rw [show (-(1 * 1) : ℝ) = -(1:ℝ) * 1 by norm_num] at h
  nlinarith [h, hmono, hexp, mul_pos hexp (sub_pos.2 hmono)]

/-- C2 amended: the futures-model Rho does mirror the spot pattern with
`df` applied, and so does the decay term of Theta, but Theta's rate term is
`r·F·df·Φ(d1)` for calls (resp. `r·F·df·Φ(−d1)` with sign `+` for puts)
instead of the claimed `r·K·df·Φ(d2)` (resp. `r·K·df·Φ(−d2)`). -/
theorem C2_amended_futures_theta_rho (F K T r sigma : ℝ) :
    b76_theta_call F K T r sigma =
      (-F * normPdf (b76_d1 F K T sigma) * sigma * Real.exp (-(r * T)) /
          (2 * Real.sqrt T) -
        r * F * Real.exp (-(r * T)) * normCdf (b76_d1 F K T sigma)) / 365 ∧
    b76_theta_put F K T r sigma =
      (-F * normPdf (b76_d1 F K T sigma) * sigma * Real.exp (-(r * T)) /
          (2 * Real.sqrt T) +
        r * F * Real.exp (-(r * T)) * normCdf (-b76_d1 F K T sigma)) / 365 ∧
    b76_rho_call F K T r sigma =
      K * T * Real.exp (-(r * T)) * normCdf (b76_d2 F K T sigma) / 100 ∧
    b76_rho_put F K T r sigma =
      -(K * T * Real.exp (-(r * T)) * normCdf (-b76_d2 F K T sigma)) / 100 := by
  refine ⟨?_, ?_, ?_, ?_⟩ <;>
    simp only [b76_theta_call, b76_theta_put, b76_rho_call, b76_rho_put,
      neg_mul] <;> ring

/-- C3: put-call parity.  In the real-number model the identity is exact
(hence in particular within any floating-point tolerance):
`call − put = S − K·e^(−rT)` for the spot model and `df·(F − K)` for the
futures model. -/
theorem C3_put_call_parity (S F K T r sigma : ℝ) :
    bs_call S K T r sigma - bs_put S K T r sigma =
      S - K * Real.exp (-(r * T)) ∧
    b76_call F K T r sigma - b76_put F K T r sigma =
      Real.exp (-(r * T)) * (F - K) := by
  constructor
  · simpa [neg_mul] using bs_parity S K T r sigma
  · simpa [neg_mul] using b76_parity F K T r sigma

/-- C5: an `option_type` outside `{call, put}` or a `model` outside
`{spot, futures}` makes both the price entry point and the Greeks entry
point raise `ValueError`; neither returns a default value. -/
theorem C5_invalid_enum_raises (model : String) (S_or_F K T r sigma : ℝ)
    (option_type : String)
    (h : ¬ (option_type = "call" ∨ option_type = "put") ∨
      ¬ (model = "spot" ∨ model = "futures")) :
    (∃ msg, price_option model S_or_F K T r sigma option_type =
      .error (.valueError msg)) ∧
    (∃ msg, calculate_greeks model S_or_F K T r sigma option_type =
      .error (.valueError msg)) := by
  by_cases hms : model = "spot"
  · subst hms
    rcases h with h | h
    · push_neg at h
      exact ⟨⟨"option_type must be call or put",
          by simp [price_option, black_scholes, h.1, h.2]⟩,
        ⟨"option_type must be call or put",
          by simp [calculate_greeks, calculate_greeks_bs, h.1, h.2]⟩⟩
    · exact absurd (Or.inl rfl) h
  · by_cases hmf : model = "futures"
    · subst hmf
      rcases h with h | h
      · push_neg at h
        exact ⟨⟨"option_type must be call or put",
            by simp [price_option, black_76, h.1, h.2]⟩,
          ⟨"option_type must be call or put",
            by simp [calculate_greeks, calculate_greeks_black76, h.1, h.2]⟩⟩
      · exact absurd (Or.inr rfl) h
    · exact ⟨⟨"model must be spot or futures",
          by simp [price_option, hms, hmf]⟩,
        ⟨"model must be spot or futures",
          by simp [calculate_greeks, hms, hmf]⟩⟩

/-- C5 witness: `price_option`/`calculate_greeks` with
`option_type = "straddle"` raise `ValueError`. -/
theorem C5_invalid_enum_raises_witness :
    (∃ msg, price_option "spot" 100 100 1 0.05 0.2 "straddle" =
      .error (.valueError msg)) ∧
    (∃ msg, calculate_greeks "spot" 100 100 1 0.05 0.2 "straddle" =
      .error (.valueError msg)) :=
  C5_invalid_enum_raises "spot" 100 100 1 0.05 0.2 "straddle"
    (Or.inl (by decide))

/-- C9: for fixed positive underlying, strike and expiry, call and put
prices are strictly increasing in σ on `(0, ∞)` under both models. -/
theorem C9_price_strict_mono_in_vol (S F K T r : ℝ) (hS : 0 < S)
    (hF : 0 < F) (hK : 0 < K) (hT : 0 < T) :
    StrictMonoOn (fun s => bs_call S K T r s) (Ioi 0) ∧
    StrictMonoOn (fun s => bs_put S K T r s) (Ioi 0) ∧
    StrictMonoOn (fun s => b76_call F K T r s) (Ioi 0) ∧
    StrictMonoOn (fun s => b76_put F K T r s) (Ioi 0) :=
  ⟨bs_call_strictMonoOn r hS hK hT, bs_put_strictMonoOn r hS hK hT,
    b76_call_strictMonoOn r hF hK hT, b76_put_strictMonoOn r hF hK hT⟩

/-- C9 witness at `S = F = 100`, `K = 95`, `T = 1`, `r = 0.05`. -/
theorem C9_price_strict_mono_in_vol_witness :
    StrictMonoOn (fun s => bs_call 100 95 1 0.05 s) (Ioi 0) ∧
    StrictMonoOn (fun s => bs_put 100 95 1 0.05 s) (Ioi 0) ∧
    StrictMonoOn (fun s => b76_call 100 95 1 0.05 s) (Ioi 0) ∧
    StrictMonoOn (fun s => b76_put 100 95 1 0.05 s) (Ioi 0) :=
  C9_price_strict_mono_in_vol 100 100 95 1 0.05 (by norm_num) (by norm_num)
    (by norm_num) (by norm_num)

lemma round4_list_4dp (a b c d e : ℝ) :
    ∀ x ∈ [round4 a, round4 b, round4 c, round4 d, round4 e],
      ∃ n : ℤ, x = (n : ℝ) / 10000 := by
  intro x hx
  simp only [List.mem_cons, List.not_mem_nil, or_false] at hx
  rcases hx with h | h | h | h | h <;> subst h <;> exact round4_is_4dp _

/-- C7: on valid inputs the Greeks entry point returns exactly the five
keys `Delta, Gamma, Vega, Theta, Rho` in this order, and every value is a
4-decimal-rounded number. -/
theorem C7_greeks_keys_and_rounding (model : String) (S_or_F K T r sigma : ℝ)
    (option_type : String) (hmodel : model = "spot" ∨ model = "futures")
    (hot : option_type = "call" ∨ option_type = "put") (hT : 0 < T)
    (hs : 0 < sigma) :
    ∃ d g v th rh : ℝ,
      calculate_greeks model S_or_F K T r sigma option_type =
        .ok [("Delta", d), ("Gamma", g), ("Vega", v), ("Theta", th),
          ("Rho", rh)] ∧
      ∀ x ∈ [d, g, v, th, rh], ∃ n : ℤ, x = (n : ℝ) / 10000 := by
  rcases hmodel with hm | hm <;> subst hm <;> rcases hot with ho | ho <;>
    subst ho
  · exact ⟨round4 (bs_delta_call S_or_F K T r sigma),
      round4 (bs_gamma S_or_F K T r sigma),
      round4 (bs_vega S_or_F K T r sigma),
      round4 (bs_theta_call S_or_F K T r sigma),
      round4 (bs_rho_call S_or_F K T r sigma),
      by simp [calculate_greeks, calculate_greeks_bs],
      round4_list_4dp _ _ _ _ _⟩
  · exact ⟨round4 (bs_delta_put S_or_F K T r sigma),
      round4 (bs_gamma S_or_F K T r sigma),
      round4 (bs_vega S_or_F K T r sigma),
      round4 (bs_theta_put S_or_F K T r sigma),
      round4 (bs_rho_put S_or_F K T r sigma),
      by simp [calculate_greeks, calculate_greeks_bs],
      round4_list_4dp _ _ _ _ _⟩
  · exact ⟨round4 (b76_delta_call S_or_F K T r sigma),
      round4 (b76_gamma S_or_F K T r sigma),
      round4 (b76_vega S_or_F K T r sigma),
      round4 (b76_theta_call S_or_F K T r sigma),
      round4 (b76_rho_call S_or_F K T r sigma),
      by simp [calculate_greeks, calculate_greeks_black76],
      round4_list_4dp _ _ _ _ _⟩
  · exact ⟨round4 (b76_delta_put S_or_F K T r sigma),
      round4 (b76_gamma S_or_F K T r sigma),
      round4 (b76_vega S_or_F K T r sigma),
      round4 (b76_theta_put S_or_F K T r sigma),
      round4 (b76_rho_put S_or_F K T r sigma),
      by simp [calculate_greeks, calculate_greeks_black76],
      round4_list_4dp _ _ _ _ _⟩

/-- C7 witness at spot call, `S = 100`, `K = 95`, `T = 1`, `r = 0.05`,
`σ = 0.2`. -/
theorem C7_greeks_keys_and_rounding_witness :
    ∃ d g v th rh : ℝ,
      calculate_greeks "spot" 100 95 1 0.05 0.2 "call" =
        .ok [("Delta", d), ("Gamma", g), ("Vega", v), ("Theta", th),
          ("Rho", rh)] ∧
      ∀ x ∈ [d, g, v, th, rh], ∃ n : ℤ, x = (n : ℝ) / 10000 :=
  C7_greeks_keys_and_rounding "spot" 100 95 1 0.05 0.2 "call"
    (Or.inl rfl) (Or.inl rfl) (by norm_num) (by norm_num)

/-- Shared: a recognised model with an unrecognised option type yields the
`None` sentinel from the implied-volatility entry point. -/
lemma get_iv_invalid_ot (brentq : Brentq) (model : String)
    (market_price S_or_F K T r : ℝ) {option_type : String}
    (hmodel : model = "spot" ∨ model = "futures")
    (hc : option_type ≠ "call") (hp : option_type ≠ "put") :
    get_implied_volatility brentq model market_price S_or_F K T r
      option_type = .ok none := by
  rcases hmodel with hm | hm <;> subst hm
  · rw [show get_implied_volatility brentq "spot" market_price S_or_F K T r
        option_type = implied_volatility brentq market_price S_or_F K T r
        option_type from by simp [get_implied_volatility]]
    exact implied_volatility_invalid_ot brentq _ _ _ _ _ hc hp
  · rw [show get_implied_volatility brentq "futures" market_price S_or_F K T
        r option_type = implied_volatility_black76 brentq market_price
        S_or_F K T r option_type from by simp [get_implied_volatility]]
    exact implied_volatility_black76_invalid_ot brentq _ _ _ _ _ hc hp

/-- C10: for a recognised model but an unrecognised option type, the
implied-volatility entry point does not raise: the `ValueError` that
`black_scholes`/`black_76` raise at the first bracket evaluation is caught
by the solver's local handler and the sentinel `None` is returned, so the
fail-loudly contract of the other entry points does not hold here. -/
theorem C10_iv_swallows_invalid_option_type (brentq : Brentq)
    (model : String) (market_price S_or_F K T r : ℝ) (option_type : String)
    (hmodel : model = "spot" ∨ model = "futures")
    (hc : option_type ≠ "call") (hp : option_type ≠ "put") :
    get_implied_volatility brentq model market_price S_or_F K T r
      option_type = .ok none :=
  get_iv_invalid_ot brentq model market_price S_or_F K T r hmodel hc hp

/-- C10 witness: `option_type = "straddle"` yields `None`, not an error. -/
theorem C10_iv_swallows_invalid_option_type_witness :
    get_implied_volatility (fun _ _ _ => .ok 0) "spot" 2.5 100 95 1 0.05
      "straddle" = .ok none :=
  C10_iv_swallows_invalid_option_type (fun _ _ _ => .ok 0) "spot" 2.5 100 95
    1 0.05 "straddle" (Or.inl rfl) (by decide) (by decide)

/-- C4: for valid contract parameters the solver returns `None` whenever
the market price is strictly below the model price at `σ = 0.0001` or
strictly above the model price at `σ = 3.0`; otherwise it proceeds to the
root-finder call (whose outcome, mapped and filtered through the
`ValueError` handler, is what the solver returns). -/
theorem C4_bracket_rejection (brentq : Brentq) (p S_or_F K T r : ℝ)
    (option_type : String)
    (hot : option_type = "call" ∨ option_type = "put")
    (hS : 0 < S_or_F) (hK : 0 < K) (hT : 0 < T) :
    ((p < bs_price S_or_F K T r 0.0001 option_type ∨
        bs_price S_or_F K T r 3.0 option_type < p) →
      get_implied_volatility brentq "spot" p S_or_F K T r option_type =
        .ok none) ∧
    ((bs_price S_or_F K T r 0.0001 option_type ≤ p ∧
        p ≤ bs_price S_or_F K T r 3.0 option_type) →
      get_implied_volatility brentq "spot" p S_or_F K T r option_type =
        catchValueError
          ((brentq (iv_objective p S_or_F K T r option_type) 0.0001
            3.0).map (fun iv => some (round4 iv))) (.ok none)) ∧
    ((p < b76_price S_or_F K T r 0.0001 option_type ∨
        b76_price S_or_F K T r 3.0 option_type < p) →
      get_implied_volatility brentq "futures" p S_or_F K T r option_type =
        .ok none) ∧
    ((b76_price S_or_F K T r 0.0001 option_type ≤ p ∧
        p ≤ b76_price S_or_F K T r 3.0 option_type) →
      get_implied_volatility brentq "futures" p S_or_F K T r option_type =
        catchValueError
          ((brentq (iv_objective_b76 p S_or_F K T r option_type) 0.0001
            3.0).map (fun iv => some (round4 iv))) (.ok none)) := by
  have hspot : get_implied_volatility brentq "spot" p S_or_F K T r
      option_type = implied_volatility brentq p S_or_F K T r option_type :=
    by simp [get_implied_volatility]
  have hfut : get_implied_volatility brentq "futures" p S_or_F K T r
      option_type =
      implied_volatility_black76 brentq p S_or_F K T r option_type := by
    simp [get_implied_volatility]
  refine ⟨?_, ?_, ?_, ?_⟩
  · intro h
    rw [hspot, implied_volatility_reduce brentq p S_or_F K T r hot,
      if_neg]
    intro hc
    rcases h with h | h <;> linarith [hc.1, hc.2]
  · intro h
    rw [hspot, implied_volatility_reduce brentq p S_or_F K T r hot,
      if_pos h]
  · intro h
    rw [hfut, implied_volatility_black76_reduce brentq p S_or_F K T r hot,
      if_neg]
    intro hc
    rcases h with h | h <;> linarith [hc.1, hc.2]
  · intro h
    rw [hfut, implied_volatility_black76_reduce brentq p S_or_F K T r hot,
      if_pos h]

/-- C4 witness with an arbitrary root finder at spot parameters. -/
theorem C4_bracket_rejection_witness :
    (((-1 : ℝ) < bs_price 100 95 1 0.05 0.0001 "call" ∨
        bs_price 100 95 1 0.05 3.0 "call" < (-1 : ℝ)) →
      get_implied_volatility (fun _ _ _ => .ok 0) "spot" (-1) 100 95 1 0.05
        "call" = .ok none) ∧
    ((bs_price 100 95 1 0.05 0.0001 "call" ≤ (-1 : ℝ) ∧
        (-1 : ℝ) ≤ bs_price 100 95 1 0.05 3.0 "call") →
      get_implied_volatility (fun _ _ _ => .ok 0) "spot" (-1) 100 95 1 0.05
        "call" =
        catchValueError
          (((fun _ _ _ => .ok 0 : Brentq)
              (iv_objective (-1) 100 95 1 0.05 "call") 0.0001 3.0).map
            (fun iv => some (round4 iv))) (.ok none)) ∧
    (((-1 : ℝ) < b76_price 100 95 1 0.05 0.0001 "call" ∨
        b76_price 100 95 1 0.05 3.0 "call" < (-1 : ℝ)) →
      get_implied_volatility (fun _ _ _ => .ok 0) "futures" (-1) 100 95 1
        0.05 "call" = .ok none) ∧
    ((b76_price 100 95 1 0.05 0.0001 "call" ≤ (-1 : ℝ) ∧
        (-1 : ℝ) ≤ b76_price 100 95 1 0.05 3.0 "call") →
      get_implied_volatility (fun _ _ _ => .ok 0) "futures" (-1) 100 95 1
        0.05 "call" =
        catchValueError
          (((fun _ _ _ => .ok 0 : Brentq)
              (iv_objective_b76 (-1) 100 95 1 0.05 "call") 0.0001 3.0).map
            (fun iv => some (round4 iv))) (.ok none)) :=
  C4_bracket_rejection (fun _ _ _ => .ok 0) (-1) 100 95 1 0.05 "call"
    (Or.inl rfl) (by norm_num) (by norm_num) (by norm_num)

/-- C6 counterexample: a root-finder failure that is not a `ValueError` —
the `RuntimeError` scipy's `brentq` raises on non-convergence with its
default `disp=True` — is not caught by `except ValueError` and propagates
to the caller instead of becoming the `None` sentinel.  Concretely, with a
bracketing market price (the model price at `σ = 1`) and a root finder that
fails to converge, the solver returns that error, not `None`. -/
theorem C6_counterexample :
    get_implied_volatility
      (fun _ _ _ =>
        .error (.otherError "Failed to converge after 100 iterations"))
      "spot" (bs_call 100 95 1 0.05 1) 100 95 1 0.05 "call" =
      .error (.otherError "Failed to converge after 100 iterations") ∧
    get_implied_volatility
      (fun _ _ _ =>
        .error (.otherError "Failed to converge after 100 iterations"))
      "spot" (bs_call 100 95 1 0.05 1) 100 95 1 0.05 "call" ≠
      .ok none := by
  have hmono := bs_call_strictMonoOn 0.05 (show (0:ℝ) < 100 by norm_num)
    (show (0:ℝ) < 95 by norm_num) (show (0:ℝ) < 1 by norm_num)
  have hbp : ∀ s : ℝ, bs_price 100 95 1 0.05 s "call" =
      bs_call 100 95 1 0.05 s := fun s => by simp [bs_price]
  have hcond : bs_price 100 95 1 0.05 0.0001 "call" ≤
      bs_call 100 95 1 0.05 1 ∧
      bs_call 100 95 1 0.05 1 ≤ bs_price 100 95 1 0.05 3.0 "call" := by
    rw [hbp, hbp]
    constructor
    · exact le_of_lt (hmono (by norm_num [Set.mem_Ioi])
        (by norm_num [Set.mem_Ioi]) (by norm_num))
    · exact le_of_lt (hmono (by norm_num [Set.mem_Ioi])
        (by norm_num [Set.mem_Ioi]) (by norm_num))
  have heq : get_implied_volatility
      (fun _ _ _ =>
        .error (.otherError "Failed to converge after 100 iterations"))
      "spot" (bs_call 100 95 1 0.05 1) 100 95 1 0.05 "call" =
      .error (.otherError "Failed to converge after 100 iterations") := by
    rw [show get_implied_volatility
        (fun _ _ _ =>
          .error (.otherError "Failed to converge after 100 iterations"))
        "spot" (bs_call 100 95 1 0.05 1) 100 95 1 0.05 "call" =
        implied_volatility
          (fun _ _ _ =>
            .error (.otherError "Failed to converge after 100 iterations"))
          (bs_call 100 95 1 0.05 1) 100 95 1 0.05 "call" from by
        simp [get_implied_volatility],
      implied_volatility_reduce _ _ _ _ _ _ (Or.inl rfl), if_pos hcond]
    rfl
  exact ⟨heq, by rw [heq]; simp⟩

/-- C6 amended: if the root finder raises a `ValueError`-class numerical
error (scipy's non-bracketing sign error) on the solver's call, the solver
returns `None` instead of propagating it, under either model.  (A
non-`ValueError` failure, such as the `RuntimeError` scipy raises on
non-convergence, is not caught — see the counterexample.) -/
theorem C6_root_finder_error_swallowed (brentq : Brentq) (model : String)
    (p S_or_F K T r : ℝ) (option_type : String) (msg msg2 : String)
    (hmodel : model = "spot" ∨ model = "futures")
    (hbs : brentq (iv_objective p S_or_F K T r option_type) 0.0001 3.0 =
      .error (.valueError msg))
    (hb76 : brentq (iv_objective_b76 p S_or_F K T r option_type) 0.0001
      3.0 = .error (.valueError msg2)) :
    get_implied_volatility brentq model p S_or_F K T r option_type =
      .ok none := by
  by_cases hot : option_type = "call" ∨ option_type = "put"
  · rcases hmodel with hm | hm <;> subst hm
    · rw [show get_implied_volatility brentq "spot" p S_or_F K T r
          option_type = implied_volatility brentq p S_or_F K T r
          option_type from by simp [get_implied_volatility],
        implied_volatility_reduce brentq p S_or_F K T r hot]
      split
      · exact catchValueError_map_error hbs
      · rfl
    · rw [show get_implied_volatility brentq "futures" p S_or_F K T r
          option_type = implied_volatility_black76 brentq p S_or_F K T r
          option_type from by simp [get_implied_volatility],
        implied_volatility_black76_reduce brentq p S_or_F K T r hot]
      split
      · exact catchValueError_map_error hb76
      · rfl
  · push_neg at hot
    exact get_iv_invalid_ot brentq model p S_or_F K T r hmodel hot.1 hot.2

/-- C6 witness: a root finder that always raises the non-bracketing
`ValueError`. -/
theorem C6_root_finder_error_swallowed_witness :
    get_implied_volatility
      (fun _ _ _ => .error (.valueError "fa and fb must have different signs"))
      "spot" 2.5 100 95 1 0.05 "call" = .ok none :=
  C6_root_finder_error_swallowed
    (fun _ _ _ => .error (.valueError "fa and fb must have different signs"))
    "spot" 2.5 100 95 1 0.05 "call"
    "fa and fb must have different signs"
    "fa and fb must have different signs" (Or.inl rfl) rfl rfl

open Classical in
/-- An idealised convergent bracketing root finder: returns an exact root
in the bracket whenever one exists, otherwise raises the non-bracketing
`ValueError`.  Used to witness hypotheses about `brentq`. -/
noncomputable def idealBrentq : Brentq := fun f a b =>
  if h : ∃ x, a ≤ x ∧ x ≤ b ∧ f x = .ok 0 then .ok h.choose
  else .error (.valueError "fa and fb must have different signs")

lemma idealBrentq_sound : ∀ (f : ℝ → PyResult ℝ) (a b : ℝ),
    (∃ x, a ≤ x ∧ x ≤ b ∧ f x = .ok 0) →
    ∃ x, idealBrentq f a b = .ok x ∧ a ≤ x ∧ x ≤ b ∧ f x = .ok 0 := by
  intro f a b h
  refine ⟨h.choose, ?_, h.choose_spec.1, h.choose_spec.2.1,
    h.choose_spec.2.2⟩
  simp only [idealBrentq, dif_pos h]

/-- C8: round trip.  If the root finder behaves as a convergent bracketing
solver (returns an exact root of its objective inside the bracket whenever
the objective has one), then feeding the model price computed at any
`σ₀ ∈ (0.0001, 3.0)` back into the implied-volatility entry point yields
`some v` with `|v − σ₀| ≤ 1e-4`, for both models and both option types. -/
theorem C8_iv_round_trip (brentq : Brentq) (model : String)
    (S_or_F K T r sigma0 p : ℝ) (option_type : String)
    (hmodel : model = "spot" ∨ model = "futures")
    (hot : option_type = "call" ∨ option_type = "put")
    (hS : 0 < S_or_F) (hK : 0 < K) (hT : 0 < T)
    (hs0 : 0.0001 < sigma0) (hs3 : sigma0 < 3)
    (hp : price_option model S_or_F K T r sigma0 option_type = .ok p)
    (hbrentq : ∀ (f : ℝ → PyResult ℝ) (a b : ℝ),
      (∃ x, a ≤ x ∧ x ≤ b ∧ f x = .ok 0) →
      ∃ x, brentq f a b = .ok x ∧ a ≤ x ∧ x ≤ b ∧ f x = .ok 0) :
    ∃ v, get_implied_volatility brentq model p S_or_F K T r option_type =
      .ok (some v) ∧ |v - sigma0| ≤ 0.0001 := by
  have h30 : (3.0 : ℝ) = 3 := by norm_num
  have hmem0 : sigma0 ∈ Ioi (0:ℝ) := by
    simp only [mem_Ioi]
    linarith
  have hmemlo : (0.0001 : ℝ) ∈ Ioi (0:ℝ) := by norm_num
  have hmemhi : (3.0 : ℝ) ∈ Ioi (0:ℝ) := by norm_num
  rcases hmodel with hm | hm <;> subst hm
  · have hpval : p = bs_price S_or_F K T r sigma0 option_type := by
      rw [show price_option "spot" S_or_F K T r sigma0 option_type =
          black_scholes S_or_F K T r sigma0 option_type from by
            simp [price_option],
        black_scholes_eq_ok S_or_F K T r sigma0 hot] at hp
      exact (Except.ok.inj hp).symm
    have hmono := bs_price_strictMonoOn r hot hS hK hT
    have hroot : ∃ x, (0.0001:ℝ) ≤ x ∧ x ≤ 3.0 ∧
        iv_objective p S_or_F K T r option_type x = .ok 0 := by
      refine ⟨sigma0, le_of_lt hs0, by linarith, ?_⟩
      rw [iv_objective, black_scholes_eq_ok S_or_F K T r sigma0 hot]
      simp [hpval, Except.map]
    obtain ⟨x, hbx, hxlo, hxhi, hxroot⟩ :=
      hbrentq (iv_objective p S_or_F K T r option_type) 0.0001 3.0 hroot
    have hxval : bs_price S_or_F K T r x option_type =
        bs_price S_or_F K T r sigma0 option_type := by
      rw [iv_objective, black_scholes_eq_ok S_or_F K T r x hot] at hxroot
      simp only [Except.map] at hxroot
      have h0 := Except.ok.inj hxroot
      rw [hpval] at h0
      linarith
    have hxs : x = sigma0 := by
      refine hmono.injOn ?_ hmem0 hxval
      simp only [mem_Ioi]
      linarith
    have hlo : bs_price S_or_F K T r 0.0001 option_type ≤ p := by
      rw [hpval]
      exact le_of_lt (hmono hmemlo hmem0 hs0)
    have hhi : p ≤ bs_price S_or_F K T r 3.0 option_type := by
      rw [hpval]
      exact le_of_lt (hmono hmem0 hmemhi (by linarith))
    refine ⟨round4 x, ?_, by rw [hxs]; exact round4_close sigma0⟩
    rw [show get_implied_volatility brentq "spot" p S_or_F K T r
        option_type = implied_volatility brentq p S_or_F K T r option_type
        from by simp [get_implied_volatility],
      implied_volatility_reduce brentq p S_or_F K T r hot,
      if_pos ⟨hlo, hhi⟩, hbx]
    rfl
  · have hpval : p = b76_price S_or_F K T r sigma0 option_type := by
      rw [show price_option "futures" S_or_F K T r sigma0 option_type =
          black_76 S_or_F K T r sigma0 option_type from by
            simp [price_option],
        black_76_eq_ok S_or_F K T r sigma0 hot] at hp
      exact (Except.ok.inj hp).symm
    have hmono := b76_price_strictMonoOn r hot hS hK hT
    have hroot : ∃ x, (0.0001:ℝ) ≤ x ∧ x ≤ 3.0 ∧
        iv_objective_b76 p S_or_F K T r option_type x = .ok 0 := by
      refine ⟨sigma0, le_of_lt hs0, by linarith, ?_⟩
      rw [iv_objective_b76, black_76_eq_ok S_or_F K T r sigma0 hot]
      simp [hpval, Except.map]
    obtain ⟨x, hbx, hxlo, hxhi, hxroot⟩ :=
      hbrentq (iv_objective_b76 p S_or_F K T r option_type) 0.0001 3.0 hroot
    have hxval : b76_price S_or_F K T r x option_type =
        b76_price S_or_F K T r sigma0 option_type := by
      rw [iv_objective_b76, black_76_eq_ok S_or_F K T r x hot] at hxroot
      simp only [Except.map] at hxroot
      have h0 := Except.ok.inj hxroot
      rw [hpval] at h0
      linarith
    have hxs : x = sigma0 := by
      refine hmono.injOn ?_ hmem0 hxval
      simp only [mem_Ioi]
      linarith
    have hlo : b76_price S_or_F K T r 0.0001 option_type ≤ p := by
      rw [hpval]
      exact le_of_lt (hmono hmemlo hmem0 hs0)
    have hhi : p ≤ b76_price S_or_F K T r 3.0 option_type := by
      rw [hpval]
      exact le_of_lt (hmono hmem0 hmemhi (by linarith))
    refine ⟨round4 x, ?_, by rw [hxs]; exact round4_close sigma0⟩
    rw [show get_implied_volatility brentq "futures" p S_or_F K T r
        option_type = implied_volatility_black76 brentq p S_or_F K T r
        option_type from by simp [get_implied_volatility],
      implied_volatility_black76_reduce brentq p S_or_F K T r hot,
      if_pos ⟨hlo, hhi⟩, hbx]
    rfl

/-- C8 witness: the idealised root finder recovers `σ₀ = 0.2` from the
spot call price within `1e-4`. -/
theorem C8_iv_round_trip_witness :
    ∃ v, get_implied_volatility idealBrentq "spot"
      (bs_call 100 95 1 0.05 0.2) 100 95 1 0.05 "call" = .ok (some v) ∧
      |v - 0.2| ≤ 0.0001 :=
  C8_iv_round_trip idealBrentq "spot" 100 95 1 0.05 0.2
    (bs_call 100 95 1 0.05 0.2) "call" (Or.inl rfl) (Or.inl rfl)
    (by norm_num) (by norm_num) (by norm_num) (by norm_num) (by norm_num)
    (by simp [price_option, black_scholes]) idealBrentq_sound

end OptionPricer
